import Mathlib

/-!
Verification of the acquisition pipeline of `TheServer` (PF-Repo).

Shallow embedding of the core of `downloader.py` and
`src/backend/shared_functions.py`:

* `selectBestAvailableQuality` embeds `HeadlessDownloader._select_best_available_quality`;
* `load_video_attributes` embeds `shared_functions.load_video_attributes`
  (foreign provider-object attribute reads become `Except`-valued fields of
  `RawVideo`; everything the Python function itself computes is embedded);
* the reconciliation blocks of `perform_download` become the pure functions
  `xvReconcile`, `hqReconcile`, `genericReconcile` over an explicit
  file-listing model;
* `registerWithMainApp` embeds `register_with_main_app`;
* `progressCallback` embeds the progress closure of `perform_download`;
* `fetchVideosFromSource` embeds the generator `fetch_videos_from_source`,
  with the enumeration source and the consumer behaviour made explicit.
-/

namespace TheServer

/-! ### Python string helpers -/

/-- Python whitespace (`str.strip` default set, ASCII part). -/
def pyIsSpace (c : Char) : Bool :=
  c == ' ' || c.toNat == 9 || c.toNat == 10 || c.toNat == 13 ||
    c.toNat == 11 || c.toNat == 12

/-- Python `str.strip()`: leading and trailing whitespace removed. -/
def pyStrip (s : String) : String :=
  ⟨((s.data.dropWhile pyIsSpace).reverse.dropWhile pyIsSpace).reverse⟩

/-- Python `str.lower()` (ASCII behaviour). -/
def pyLower (s : String) : String :=
  ⟨s.data.map Char.toLower⟩

/-- Substring test: Python `needle in hay`. -/
def strHas (hay needle : String) : Bool :=
  go hay.data needle.data
where
  go : List Char → List Char → Bool
    | hs, ns => ns.isPrefixOf hs || (match hs with
        | [] => false
        | _ :: t => go t ns)

/-- Numeric value of a list of decimal digit characters. -/
def digitsToNat (cs : List Char) : Nat :=
  cs.foldl (fun a c => a * 10 + (c.toNat - ('0').toNat)) 0

/-- Python `re.sub(r'[^0-9]', '', s)`: every non-digit character removed. -/
def digitsOnly (s : String) : String :=
  ⟨s.data.filter Char.isDigit⟩

/-- First maximal digit run of a string, as Python `re.search(r'(\d+)', s)`
returns it: `none` when the string has no digit. -/
def firstDigitRun : List Char → Option Nat
  | [] => none
  | c :: rest =>
    if c.isDigit then some (digitsToNat (c :: rest.takeWhile Char.isDigit))
    else firstDigitRun rest

/-- Python `int(re.sub(r'[^0-9]', '', s))`, returning `none` for the
`ValueError` raised when no digit is left. -/
def pyIntDigits (s : String) : Option Nat :=
  let d := digitsOnly s
  if d = "" then none else some (digitsToNat d.data)

/-! ### Quality resolver (`_select_best_available_quality`) -/

/-- Eporner tier tokens, the list at line 145 of `downloader.py`. -/
def tierTokens : List String := ["best", "half", "worst"]

/-- One step of the normalization loop (lines 135-138): strip, drop empty,
drop duplicates. -/
def normStep (acc : List String) (q : String) : List String :=
  let t := pyStrip q
  if t ≠ "" ∧ t ∉ acc then acc ++ [t] else acc

/-- Normalization loop of `_select_best_available_quality` (lines 134-138):
stringified tokens are stripped, empty ones dropped, duplicates dropped,
insertion order preserved. -/
def normalizeQualities (available : List String) : List String :=
  available.foldl normStep []

/-- `quality_sort_key` (lines 165-172): `'high'` substring ↦ 10000,
else `'low'` substring ↦ 0, else first digit run ↦ its value, else -1. -/
def qualitySortKey (q : String) : Int :=
  let s := pyLower q
  if strHas s "high" then 10000
  else if strHas s "low" then 0
  else
    match firstDigitRun s.data with
    | some n => (n : Int)
    | none => -1

/-- Stable descending insertion: a new element goes after every already
placed element of greater-or-equal key, matching Python's stable
`sorted(..., reverse := True)`. -/
def insertKeyDesc {α : Type} (key : α → Int) (x : α) : List α → List α
  | [] => [x]
  | y :: ys => if key x ≤ key y then y :: insertKeyDesc key x ys else x :: y :: ys

/-- Stable sort, descending by `key`, of `sorted(l, key, reverse := True)`. -/
def sortByKeyDesc {α : Type} (key : α → Int) (l : List α) : List α :=
  l.foldl (fun acc x => insertKeyDesc key x acc) []

/-- The `q_res <= requested_res` search predicate of lines 203-207: the token
has a digit and its digits-only value is at most the requested value. -/
def numLeq (rres : Nat) (q : String) : Bool :=
  decide (digitsOnly q ≠ "") && decide (digitsToNat (digitsOnly q).data ≤ rres)

/-- Eporner tier branch of `_select_best_available_quality`, lines 147-162. -/
def tierSelect (requested : String) (norm : List String) : String :=
  if requested ∈ tierTokens then
    if requested ∈ norm then requested
    else if "best" ∈ norm then "best" else norm.headD ""
  else if requested ∈ (["720p", "1080p", "1440p", "2160p"] : List String) then
    if "best" ∈ norm then "best" else norm.headD ""
  else if requested ∈ (["480p", "540p"] : List String) then
    if "half" ∈ norm then "half"
    else if "best" ∈ norm then "best" else norm.headD ""
  else if "worst" ∈ norm then "worst" else norm.headD ""

/-- Resolution branch of `_select_best_available_quality`, lines 174-220,
applied to the already sorted (descending) quality list. -/
def resolutionSelect (requested : String) (sorted : List String) : Option String :=
  match sorted with
  | [] => none
  | s0 :: srest =>
    if requested = "best" then some s0
    else if requested = "half" then
      some ((s0 :: srest).getD ((s0 :: srest).length / 2) s0)
    else if requested = "worst" then some ((s0 :: srest).getLastD s0)
    else if requested ∈ s0 :: srest then some requested
    else
      match (s0 :: srest).find? (fun q => pyLower q == pyLower requested) with
      | some q => some q
      | none =>
        match pyIntDigits requested with
        | none => some s0
        | some rres =>
          match (s0 :: srest).find? (numLeq rres) with
          | some q => some q
          | none => some ((s0 :: srest).getLastD s0)

/-- `HeadlessDownloader._select_best_available_quality`
(`downloader.py` lines 121-220). -/
def selectBestAvailableQuality (requested : String) (available : List String) :
    Option String :=
  if available = [] then none
  else if normalizeQualities available = [] then none
  else if (normalizeQualities available).any (fun q => decide (q ∈ tierTokens)) then
    some (tierSelect requested (normalizeQualities available))
  else
    resolutionSelect requested
      (sortByKeyDesc qualitySortKey (normalizeQualities available))

/-! ### Helper lemmas about the resolver -/

theorem mem_insertKeyDesc {α : Type} (key : α → Int) (x a : α) (l : List α) :
    a ∈ insertKeyDesc key x l ↔ a = x ∨ a ∈ l := by
  induction l with
  | nil => simp [insertKeyDesc]
  | cons y ys ih =>
    unfold insertKeyDesc
    by_cases h : key x ≤ key y
    · rw [if_pos h, List.mem_cons, ih, List.mem_cons]
      tauto
    · rw [if_neg h]
      exact List.mem_cons

theorem mem_foldl_insertKeyDesc {α : Type} (key : α → Int) (l : List α) (a : α) :
    ∀ acc, (a ∈ l.foldl (fun acc x => insertKeyDesc key x acc) acc ↔
      a ∈ l ∨ a ∈ acc) := by
  induction l with
  | nil => intro acc; simp
  | cons x xs ih =>
    intro acc
    simp only [List.foldl_cons, ih, mem_insertKeyDesc, List.mem_cons]
    tauto

theorem mem_sortByKeyDesc {α : Type} (key : α → Int) (l : List α) (a : α) :
    a ∈ sortByKeyDesc key l ↔ a ∈ l := by
  simp [sortByKeyDesc, mem_foldl_insertKeyDesc]

theorem sortByKeyDesc_ne_nil {α : Type} (key : α → Int) (l : List α)
    (h : l ≠ []) : sortByKeyDesc key l ≠ [] := by
  cases l with
  | nil => exact absurd rfl h
  | cons x xs =>
    intro hs
    have hx : x ∈ sortByKeyDesc key (x :: xs) :=
      (mem_sortByKeyDesc key (x :: xs) x).mpr (List.mem_cons_self x xs)
    rw [hs] at hx
    exact absurd hx (List.not_mem_nil x)

theorem mem_foldl_normStep (l : List String) (q : String) :
    ∀ acc, q ∈ l.foldl normStep acc → q ∈ acc ∨ ∃ a ∈ l, pyStrip a = q := by
  induction l with
  | nil => intro acc h; exact Or.inl h
  | cons x xs ih =>
    intro acc h
    simp only [List.foldl_cons] at h
    rcases ih _ h with hacc | ⟨a, ha, hq⟩
    · unfold normStep at hacc
      by_cases hx : pyStrip x ≠ "" ∧ pyStrip x ∉ acc
      · rw [if_pos hx] at hacc
        rcases List.mem_append.mp hacc with h1 | h2
        · exact Or.inl h1
        · right
          refine ⟨x, List.mem_cons_self x xs, ?_⟩
          have hq : q = pyStrip x := List.mem_singleton.mp h2
          exact hq.symm
      · rw [if_neg hx] at hacc
        exact Or.inl hacc
    · exact Or.inr ⟨a, List.mem_cons_of_mem x ha, hq⟩

theorem mem_normalizeQualities_trim (available : List String) (q : String)
    (h : q ∈ normalizeQualities available) : ∃ a ∈ available, pyStrip a = q := by
  rcases mem_foldl_normStep available q [] h with h0 | h1
  · exact absurd h0 (List.not_mem_nil q)
  · exact h1

theorem headD_mem {α : Type} (l : List α) (d : α) (h : l ≠ []) :
    l.headD d ∈ l := by
  cases l with
  | nil => exact absurd rfl h
  | cons x xs => simp [List.headD]

theorem getD_mem {α : Type} (l : List α) (i : Nat) (d : α) (hd : d ∈ l) :
    l.getD i d ∈ l := by
  rw [List.getD_eq_getElem?_getD]
  cases h : l[i]? with
  | none => simpa using hd
  | some a =>
    have := List.getElem?_mem h
    simpa using this

theorem getLastD_cons_mem {α : Type} :
    ∀ (x : α) (xs : List α) (d : α), (x :: xs).getLastD d ∈ x :: xs
  | x, [], _ => by simp [List.getLastD]
  | x, y :: ys, d => by
    have h := getLastD_cons_mem y ys x
    simp only [List.getLastD] at h ⊢
    simp only [List.mem_cons] at h ⊢
    tauto

theorem tierSelect_mem (requested : String) (norm : List String)
    (h : norm ≠ []) : tierSelect requested norm ∈ norm := by
  unfold tierSelect
  by_cases h1 : requested ∈ tierTokens
  · rw [if_pos h1]
    by_cases h2 : requested ∈ norm
    · rwa [if_pos h2]
    · rw [if_neg h2]
      by_cases h3 : ("best" : String) ∈ norm
      · rwa [if_pos h3]
      · rw [if_neg h3]; exact headD_mem norm "" h
  · rw [if_neg h1]
    by_cases h4 : requested ∈ (["720p", "1080p", "1440p", "2160p"] : List String)
    · rw [if_pos h4]
      by_cases h3 : ("best" : String) ∈ norm
      · rwa [if_pos h3]
      · rw [if_neg h3]; exact headD_mem norm "" h
    · rw [if_neg h4]
      by_cases h5 : requested ∈ (["480p", "540p"] : List String)
      · rw [if_pos h5]
        by_cases h6 : ("half" : String) ∈ norm
        · rwa [if_pos h6]
        · rw [if_neg h6]
          by_cases h3 : ("best" : String) ∈ norm
          · rwa [if_pos h3]
          · rw [if_neg h3]; exact headD_mem norm "" h
      · rw [if_neg h5]
        by_cases h7 : ("worst" : String) ∈ norm
        · rwa [if_pos h7]
        · rw [if_neg h7]; exact headD_mem norm "" h

theorem resolutionSelect_mem (requested : String) (s0 : String)
    (srest : List String) :
    ∃ q ∈ s0 :: srest, resolutionSelect requested (s0 :: srest) = some q := by
  simp only [resolutionSelect]
  by_cases h1 : requested = "best"
  · exact ⟨s0, List.mem_cons_self s0 srest, by rw [if_pos h1]⟩
  · rw [if_neg h1]
    by_cases h2 : requested = "half"
    · refine ⟨(s0 :: srest).getD ((s0 :: srest).length / 2) s0, ?_, by rw [if_pos h2]⟩
      exact getD_mem _ _ _ (List.mem_cons_self s0 srest)
    · rw [if_neg h2]
      by_cases h3 : requested = "worst"
      · exact ⟨(s0 :: srest).getLastD s0, getLastD_cons_mem s0 srest s0, by rw [if_pos h3]⟩
      · rw [if_neg h3]
        by_cases h4 : requested ∈ s0 :: srest
        · exact ⟨requested, h4, by rw [if_pos h4]⟩
        · rw [if_neg h4]
          cases h5 : (s0 :: srest).find? (fun q => pyLower q == pyLower requested) with
          | some q => exact ⟨q, List.mem_of_find?_eq_some h5, rfl⟩
          | none =>
            show ∃ q ∈ s0 :: srest,
              (match pyIntDigits requested with
                | none => some s0
                | some rres =>
                  match (s0 :: srest).find? (numLeq rres) with
                  | some q => some q
                  | none => some ((s0 :: srest).getLastD s0)) = some q
            cases h6 : pyIntDigits requested with
            | none => exact ⟨s0, List.mem_cons_self s0 srest, rfl⟩
            | some rres =>
              show ∃ q ∈ s0 :: srest,
                (match (s0 :: srest).find? (numLeq rres) with
                  | some q => some q
                  | none => some ((s0 :: srest).getLastD s0)) = some q
              cases h7 : (s0 :: srest).find? (numLeq rres) with
              | some q => exact ⟨q, List.mem_of_find?_eq_some h7, rfl⟩
              | none =>
                exact ⟨(s0 :: srest).getLastD s0, getLastD_cons_mem s0 srest s0, rfl⟩

theorem select_mem (requested : String) (available : List String)
    (h : normalizeQualities available ≠ []) :
    ∃ q ∈ normalizeQualities available,
      selectBestAvailableQuality requested available = some q := by
  have havail : available ≠ [] := by
    intro ha
    apply h
    rw [ha]
    rfl
  unfold selectBestAvailableQuality
  rw [if_neg havail, if_neg h]
  by_cases htier : (normalizeQualities available).any (fun q => decide (q ∈ tierTokens)) = true
  · rw [if_pos htier]
    exact ⟨tierSelect requested (normalizeQualities available), tierSelect_mem _ _ h, rfl⟩
  · rw [if_neg htier]
    cases hs : sortByKeyDesc qualitySortKey (normalizeQualities available) with
    | nil => exact absurd hs (sortByKeyDesc_ne_nil _ _ h)
    | cons s0 srest =>
      rcases resolutionSelect_mem requested s0 srest with ⟨q, hq, heq⟩
      refine ⟨q, ?_, heq⟩
      have : q ∈ sortByKeyDesc qualitySortKey (normalizeQualities available) := by
        rw [hs]; exact hq
      exact (mem_sortByKeyDesc _ _ _).mp this

theorem resolutionSelect_concrete (requested s0 : String) (srest : List String)
    (hb : requested ≠ "best") (hh : requested ≠ "half") (hw : requested ≠ "worst")
    (hne : requested ∉ s0 :: srest)
    (hci : (s0 :: srest).find? (fun q => pyLower q == pyLower requested) = none) :
    resolutionSelect requested (s0 :: srest) =
      (match pyIntDigits requested with
        | none => some s0
        | some rres =>
          match (s0 :: srest).find? (numLeq rres) with
          | some q => some q
          | none => some ((s0 :: srest).getLastD s0)) := by
  simp only [resolutionSelect]
  rw [if_neg hb, if_neg hh, if_neg hw, if_neg hne, hci]

theorem select_eq_resolutionSelect (requested : String) (available : List String)
    (s0 : String) (srest : List String)
    (hsort : sortByKeyDesc qualitySortKey (normalizeQualities available) = s0 :: srest)
    (hNoTier : (normalizeQualities available).any
      (fun q => decide (q ∈ tierTokens)) = false) :
    selectBestAvailableQuality requested available =
      resolutionSelect requested (s0 :: srest) := by
  have hnorm : normalizeQualities available ≠ [] := by
    intro hn
    rw [hn] at hsort
    exact List.cons_ne_nil s0 srest hsort.symm
  have havail : available ≠ [] := by
    intro ha
    apply hnorm
    rw [ha]
    rfl
  unfold selectBestAvailableQuality
  rw [if_neg havail, if_neg hnorm, if_neg (by simp [hNoTier]), hsort]

/-! ### Claim C1 -/

/-- C1 counterexample: for the non-empty available list `[""]` (a single
token that is empty after stripping) the resolver returns `none`, so the
claim "null is returned only when `available` is empty" is false as
stated. -/
theorem c1_counterexample :
    selectBestAvailableQuality "best" [""] = none ∧ ([""] : List String) ≠ [] := by
  constructor
  · decide
  · decide

/-- C1 (amended): the resolver returns `none` exactly when every available
token strips to the empty string (in particular when `available` is empty);
otherwise it returns a member of the normalized (stripped, deduplicated)
token list — always the stripped copy of some member of `available`. -/
theorem c1_member (requested : String) (available : List String) :
    (normalizeQualities available = [] →
      selectBestAvailableQuality requested available = none)
    ∧ (normalizeQualities available ≠ [] →
      ∃ q ∈ normalizeQualities available,
        selectBestAvailableQuality requested available = some q ∧
        ∃ a ∈ available, pyStrip a = q) := by
  constructor
  · intro h
    unfold selectBestAvailableQuality
    by_cases ha : available = []
    · rw [if_pos ha]
    · rw [if_neg ha, if_pos h]
  · intro h
    rcases select_mem requested available h with ⟨q, hq, heq⟩
    exact ⟨q, hq, heq, mem_normalizeQualities_trim available q hq⟩

theorem c1_member_witness :
    normalizeQualities ["1080p", "480p"] ≠ [] ∧
    ∃ q ∈ normalizeQualities ["1080p", "480p"],
      selectBestAvailableQuality "720p" ["1080p", "480p"] = some q ∧
      ∃ a ∈ ["1080p", "480p"], pyStrip a = q :=
  ⟨by decide, (c1_member "720p" ["1080p", "480p"]).2 (by decide)⟩

/-! ### Claim C6 -/

/-- C6: when any normalized token is a tier token, resolution is tier-based:
a requested tier token is returned if present, else `best` if present, else
the first token; `720p/1080p/1440p/2160p` map to `best`, `480p/540p` to
`half`, everything else to `worst`, each clamped to the available fallback
chain; in particular `resolve "1080p" [best, half, worst] = best`, and the
result never depends on the numeric sorting path. -/
theorem c6_tier_resolution (requested : String) (available : List String)
    (h : ∃ q ∈ normalizeQualities available, q ∈ tierTokens) :
    (requested ∈ tierTokens → requested ∈ normalizeQualities available →
      selectBestAvailableQuality requested available = some requested)
    ∧ (requested ∈ tierTokens → requested ∉ normalizeQualities available →
      selectBestAvailableQuality requested available =
        some (if "best" ∈ normalizeQualities available then "best"
          else (normalizeQualities available).headD ""))
    ∧ (requested ∈ (["720p", "1080p", "1440p", "2160p"] : List String) →
      selectBestAvailableQuality requested available =
        some (if "best" ∈ normalizeQualities available then "best"
          else (normalizeQualities available).headD ""))
    ∧ (requested ∈ (["480p", "540p"] : List String) →
      selectBestAvailableQuality requested available =
        some (if "half" ∈ normalizeQualities available then "half"
          else if "best" ∈ normalizeQualities available then "best"
          else (normalizeQualities available).headD ""))
    ∧ (requested ∉ tierTokens →
       requested ∉ (["720p", "1080p", "1440p", "2160p"] : List String) →
       requested ∉ (["480p", "540p"] : List String) →
      selectBestAvailableQuality requested available =
        some (if "worst" ∈ normalizeQualities available then "worst"
          else (normalizeQualities available).headD ""))
    ∧ selectBestAvailableQuality "1080p" ["best", "half", "worst"] = some "best" := by
  obtain ⟨t, ht, htt⟩ := h
  have hnorm : normalizeQualities available ≠ [] := by
    intro hn
    rw [hn] at ht
    exact List.not_mem_nil t ht
  have havail : available ≠ [] := by
    intro ha
    apply hnorm
    rw [ha]
    rfl
  have hany : (normalizeQualities available).any
      (fun q => decide (q ∈ tierTokens)) = true :=
    List.any_eq_true.mpr ⟨t, ht, by simpa using htt⟩
  have hsel : selectBestAvailableQuality requested available
      = some (tierSelect requested (normalizeQualities available)) := by
    unfold selectBestAvailableQuality
    rw [if_neg havail, if_neg hnorm, if_pos hany]
  refine ⟨?_, ?_, ?_, ?_, ?_, by decide⟩
  · intro h1 h2
    rw [hsel]
    unfold tierSelect
    rw [if_pos h1, if_pos h2]
  · intro h1 h2
    rw [hsel]
    unfold tierSelect
    rw [if_pos h1, if_neg h2]
  · intro h3
    have h1 : requested ∉ tierTokens := by
      rcases (by simpa using h3 :
          requested = "720p" ∨ requested = "1080p" ∨
          requested = "1440p" ∨ requested = "2160p") with rfl | rfl | rfl | rfl <;> decide
    rw [hsel]
    unfold tierSelect
    rw [if_neg h1, if_pos h3]
  · intro h5
    have h1 : requested ∉ tierTokens := by
      rcases (by simpa using h5 :
          requested = "480p" ∨ requested = "540p") with rfl | rfl <;> decide
    have h4 : requested ∉ (["720p", "1080p", "1440p", "2160p"] : List String) := by
      rcases (by simpa using h5 :
          requested = "480p" ∨ requested = "540p") with rfl | rfl <;> decide
    rw [hsel]
    unfold tierSelect
    rw [if_neg h1, if_neg h4, if_pos h5]
  · intro h1 h4 h5
    rw [hsel]
    unfold tierSelect
    rw [if_neg h1, if_neg h4, if_neg h5]

theorem c6_tier_resolution_witness :
    (∃ q ∈ normalizeQualities ["best", "half", "worst"], q ∈ tierTokens) ∧
    selectBestAvailableQuality "1080p" ["best", "half", "worst"] = some "best" :=
  ⟨by decide,
    (c6_tier_resolution "1080p" ["best", "half", "worst"] (by decide)).2.2.2.2.2⟩

/-! ### Claim C7 -/

/-- C7: for a concrete request in a resolution-based list with no exact or
case-insensitive match: if the request has digits, the first token of the
descending-sorted list whose digits-only value is ≤ the requested value is
returned, and if there is none the last (lowest) sorted token is returned;
a request with no digits at all gets the top of the sorted list; in
particular `resolve "720p" ["1080p", "480p"] = "480p"`. -/
theorem c7_numeric_fallback (requested : String) (available : List String)
    (s0 : String) (srest : List String)
    (hsort : sortByKeyDesc qualitySortKey (normalizeQualities available) = s0 :: srest)
    (hNoTier : (normalizeQualities available).any
      (fun q => decide (q ∈ tierTokens)) = false)
    (hNotTier : requested ∉ tierTokens)
    (hNoExact : requested ∉ s0 :: srest)
    (hNoCI : (s0 :: srest).find? (fun q => pyLower q == pyLower requested) = none) :
    (digitsOnly requested = "" →
      selectBestAvailableQuality requested available = some s0)
    ∧ (∀ rres, pyIntDigits requested = some rres →
        (∀ q, (s0 :: srest).find? (numLeq rres) = some q →
          selectBestAvailableQuality requested available = some q)
        ∧ ((s0 :: srest).find? (numLeq rres) = none →
          selectBestAvailableQuality requested available =
            some ((s0 :: srest).getLastD s0)))
    ∧ selectBestAvailableQuality "720p" ["1080p", "480p"] = some "480p" := by
  have hb : requested ≠ "best" := fun e => hNotTier (by rw [e]; decide)
  have hh : requested ≠ "half" := fun e => hNotTier (by rw [e]; decide)
  have hw : requested ≠ "worst" := fun e => hNotTier (by rw [e]; decide)
  have hsel : selectBestAvailableQuality requested available =
      (match pyIntDigits requested with
        | none => some s0
        | some rres =>
          match (s0 :: srest).find? (numLeq rres) with
          | some q => some q
          | none => some ((s0 :: srest).getLastD s0)) := by
    rw [select_eq_resolutionSelect requested available s0 srest hsort hNoTier]
    exact resolutionSelect_concrete requested s0 srest hb hh hw hNoExact hNoCI
  refine ⟨?_, ?_, by decide⟩
  · intro hd
    have hpy : pyIntDigits requested = none := by simp [pyIntDigits, hd]
    rw [hsel, hpy]
  · intro rres hpy
    constructor
    · intro q hfind
      rw [hsel, hpy]
      show (match (s0 :: srest).find? (numLeq rres) with
        | some q => some q
        | none => some ((s0 :: srest).getLastD s0)) = some q
      rw [hfind]
    · intro hfind
      rw [hsel, hpy]
      show (match (s0 :: srest).find? (numLeq rres) with
        | some q => some q
        | none => some ((s0 :: srest).getLastD s0)) =
          some ((s0 :: srest).getLastD s0)
      rw [hfind]

theorem c7_numeric_fallback_witness :
    sortByKeyDesc qualitySortKey (normalizeQualities ["1080p", "480p"]) =
      ["1080p", "480p"] ∧
    selectBestAvailableQuality "720p" ["1080p", "480p"] = some "480p" :=
  ⟨by decide,
    (c7_numeric_fallback "720p" ["1080p", "480p"] "1080p" ["480p"]
      (by decide) (by decide) (by decide) (by decide) (by decide)).2.2⟩

/-! ### Claim C8 -/

/-- C8 counterexample: a numeric token whose embedded value exceeds 10000
sorts ABOVE a token containing "high", so the claimed ordering ("every
token containing high above all numeric tokens") is false. -/
theorem c8_counterexample :
    qualitySortKey "high" < qualitySortKey "16000p" ∧
    selectBestAvailableQuality "best" ["high", "16000p"] = some "16000p" := by
  constructor
  · decide
  · decide

/-- C8 (amended): tokens containing "high" get key 10000 (hence above all
numeric tokens of value below 10000, not above all numeric tokens), tokens
containing "low" get key 0, numeric tokens their first embedded digit run,
non-numeric tokens -1; after sorting descending, best returns the first
element, worst the last, half the element at `len / 2` — index 2 for a
four-element list. -/
theorem c8_sort_behavior :
    (∀ q : String, strHas (pyLower q) "high" = true → qualitySortKey q = 10000)
    ∧ (∀ q : String, strHas (pyLower q) "high" = false →
        strHas (pyLower q) "low" = true → qualitySortKey q = 0)
    ∧ (∀ q : String, ∀ n : Nat, strHas (pyLower q) "high" = false →
        strHas (pyLower q) "low" = false → firstDigitRun (pyLower q).data = some n →
        qualitySortKey q = n)
    ∧ (∀ q : String, strHas (pyLower q) "high" = false →
        strHas (pyLower q) "low" = false → firstDigitRun (pyLower q).data = none →
        qualitySortKey q = -1)
    ∧ (∀ (available : List String) (s0 : String) (srest : List String),
        sortByKeyDesc qualitySortKey (normalizeQualities available) = s0 :: srest →
        (normalizeQualities available).any (fun q => decide (q ∈ tierTokens)) = false →
        selectBestAvailableQuality "best" available = some s0 ∧
        selectBestAvailableQuality "worst" available =
          some ((s0 :: srest).getLastD s0) ∧
        selectBestAvailableQuality "half" available =
          some ((s0 :: srest).getD ((s0 :: srest).length / 2) s0))
    ∧ selectBestAvailableQuality "half" ["1080p", "720p", "480p", "360p"] =
        some "480p" := by
  refine ⟨?_, ?_, ?_, ?_, ?_, by decide⟩
  · intro q h1
    simp [qualitySortKey, h1]
  · intro q h1 h2
    simp [qualitySortKey, h1, h2]
  · intro q n h1 h2 h3
    simp [qualitySortKey, h1, h2, h3]
  · intro q h1 h2 h3
    simp [qualitySortKey, h1, h2, h3]
  · intro available s0 srest hsort hNoTier
    refine ⟨?_, ?_, ?_⟩
    · rw [select_eq_resolutionSelect "best" available s0 srest hsort hNoTier]
      simp [resolutionSelect]
    · rw [select_eq_resolutionSelect "worst" available s0 srest hsort hNoTier]
      simp [resolutionSelect]
    · rw [select_eq_resolutionSelect "half" available s0 srest hsort hNoTier]
      simp [resolutionSelect]

theorem c8_sort_behavior_witness :
    strHas (pyLower "Ultra-High") "high" = true ∧
    qualitySortKey "Ultra-High" = 10000 ∧
    sortByKeyDesc qualitySortKey (normalizeQualities ["1080p", "720p", "480p", "360p"]) =
      ["1080p", "720p", "480p", "360p"] ∧
    selectBestAvailableQuality "half" ["1080p", "720p", "480p", "360p"] =
      some "480p" :=
  ⟨by decide, c8_sort_behavior.1 "Ultra-High" (by decide), by decide,
    (c8_sort_behavior.2.2.2.2.1 ["1080p", "720p", "480p", "360p"] "1080p"
      ["720p", "480p", "360p"] (by decide) (by decide)).2.2⟩

/-! ### Duration parsing (`_parse_duration_to_seconds`) -/

/-- Python `s.split(c)` on a single-character separator. -/
def splitOnChar (c : Char) : List Char → List (List Char)
  | [] => [[]]
  | x :: rest =>
    let r := splitOnChar c rest
    if x = c then [] :: r
    else
      match r with
      | [] => [[x]]
      | h :: t => (x :: h) :: t

/-- Python `int(s)` on a string: optional surrounding whitespace, optional
sign, non-empty digits; `none` models the `ValueError`. -/
def pyInt (s : String) : Option Int :=
  let cs := (((s.data.dropWhile pyIsSpace).reverse).dropWhile pyIsSpace).reverse
  match cs with
  | [] => none
  | '+' :: ds =>
    if ds ≠ [] ∧ ds.all Char.isDigit then some ((digitsToNat ds : Nat) : Int) else none
  | '-' :: ds =>
    if ds ≠ [] ∧ ds.all Char.isDigit then some (-((digitsToNat ds : Nat) : Int)) else none
  | ds => if ds.all Char.isDigit then some ((digitsToNat ds : Nat) : Int) else none

/-- Python `re.search(r'(\d+)\s*X', s)` for a literal unit character `X`:
value of the leftmost maximal digit run that is followed (after optional
whitespace) by the unit character. -/
def findUnitVal (c : Char) : List Char → Option Nat
  | [] => none
  | d :: rest =>
    if d.isDigit then
      let run := d :: rest.takeWhile Char.isDigit
      let after := (rest.dropWhile Char.isDigit).dropWhile pyIsSpace
      if after.head? = some c then some (digitsToNat run)
      else findUnitVal c rest
    else findUnitVal c rest

/-- A Python duration value as received from a provider object. -/
inductive PyDuration
  | int (n : Int)
  | float (q : ℚ)
  | str (s : String)
  | other
deriving DecidableEq

/-- Python `int()` applied to a float truncates toward zero. -/
def ratTrunc (q : ℚ) : Int :=
  if 0 ≤ q then ⌊q⌋ else ⌈q⌉

/-- `shared_functions._parse_duration_to_seconds` (lines 622-656); the
`ValueError` that `int()` can raise on a malformed colon part is the
`Except.error` case. -/
def parseDurationToSeconds : PyDuration → Except Unit Int
  | .int n => .ok n
  | .float q => .ok (ratTrunc q)
  | .other => .ok 0
  | .str s0 =>
    let s := pyLower s0
    let hours : Int :=
      if strHas s "h" then
        match findUnitVal 'h' s.data with
        | some n => (n : Int) * 3600
        | none => 0
      else 0
    let minutes : Int :=
      if strHas s "m" then
        match findUnitVal 'm' s.data with
        | some n => (n : Int) * 60
        | none => 0
      else 0
    let seconds : Int :=
      if strHas s "s" then
        match findUnitVal 's' s.data with
        | some n => (n : Int)
        | none => 0
      else 0
    let total := hours + minutes + seconds
    if total = 0 then
      if strHas s ":" then
        match (splitOnChar ':' s.data).map (fun cs => String.mk cs) with
        | [p0, p1] =>
          match pyInt p0, pyInt p1 with
          | some a, some b => .ok (a * 60 + b)
          | _, _ => .error ()
        | [p0, p1, p2] =>
          match pyInt p0, pyInt p1, pyInt p2 with
          | some a, some b, some c => .ok (a * 3600 + b * 60 + c)
          | _, _, _ => .error ()
        | _ => .ok 0
      else if s.data ≠ [] ∧ s.data.all Char.isDigit then .ok ((digitsToNat s.data : Nat) : Int)
      else .ok 0
    else .ok total

/-! ### Metadata normalizer (`load_video_attributes`) -/

/-- The provider families distinguished by the isinstance dispatch of
`load_video_attributes`. -/
inductive VideoKind
  | pornhub | xvideos | xnxx | eporner | hqporner
  | missav | xhamster | spankbang | youporn | unsupported
deriving DecidableEq

/-- A provider `tags` value: Python accepts either a comma-joined string or
a list (lines 590-591). -/
inductive PyTags
  | raw (s : String)
  | list (l : List String)
deriving DecidableEq

/-- The foreign surface of one provider video object: each field holds the
outcome of the corresponding per-provider extraction code of
`load_video_attributes` (`Except.error` = the Python attribute access or
strategy chain raised); `qualitiesE = .ok []` means the strategy chain ran
without raising but found no qualities. -/
structure RawVideo where
  kind : VideoKind
  titleE : Except Unit String
  authorE : Except Unit String
  lengthE : Except Unit PyDuration
  tagsE : Except Unit PyTags
  publishDateE : Except Unit (Option String)
  thumbnailE : Except Unit (Option String)
  qualitiesE : Except Unit (List String)

/-- The canonical metadata dict built at lines 602-610. -/
structure Attrs where
  title : String
  author : String
  length : Int
  tags : List String
  publish_date : String
  thumbnail : Option String
  qualities : List String
deriving DecidableEq

/-- Line 590-591: a raw string tags value is comma-split and stripped. -/
def normalizeTags : PyTags → List String
  | .raw s => (splitOnChar ',' s.data).map (fun cs => pyStrip (String.mk cs))
  | .list l => l

/-- Line 607: `str(publish_date) if publish_date else "N/A"`. -/
def normalizePublishDate : Option String → String
  | none => "N/A"
  | some s => s

/-- The Eporner in-branch quality fallback at line 477. -/
def epBranchQualities (kind : VideoKind) (qs : List String) : List String :=
  if kind = VideoKind.eporner ∧ qs = [] then ["best", "half", "worst"] else qs

/-- Quality fallback of lines 593-600 composed with the Eporner in-branch
fallback of line 477. -/
def finalQualities (kind : VideoKind) (qs : List String) : List String :=
  if epBranchQualities kind qs = [] then
    if kind = VideoKind.eporner then ["best", "half", "worst"]
    else ["720p", "480p", "360p"]
  else epBranchQualities kind qs

/-- The canonical dict of lines 602-610, from the extracted raw fields. -/
def mkAttrs (title author : String) (seconds : Int) (tags0 : PyTags)
    (pd : Option String) (thumb : Option String) (k : VideoKind)
    (qs : List String) : Attrs :=
  { title := title, author := author, length := seconds,
    tags := normalizeTags tags0, publish_date := normalizePublishDate pd,
    thumbnail := thumb, qualities := finalQualities k qs }

/-- The `try` body of `load_video_attributes` (lines 325-612): unsupported
types raise `TypeError` (line 587); any raising field extraction aborts the
body; otherwise the canonical dict is built. -/
def loadBody (v : RawVideo) : Except Unit Attrs :=
  if v.kind = VideoKind.unsupported then .error ()
  else
    match v.titleE, v.authorE, v.lengthE, v.tagsE,
        v.publishDateE, v.thumbnailE, v.qualitiesE with
    | .ok title, .ok author, .ok rawLength, .ok tags0, .ok pd, .ok thumb, .ok qs =>
      match parseDurationToSeconds rawLength with
      | .error e => .error e
      | .ok seconds => .ok (mkAttrs title author seconds tags0 pd thumb v.kind qs)
    | _, _, _, _, _, _, _ => .error ()

/-- The degraded record returned by the `except` handler, lines 617-620. -/
def errorAttrs : Attrs :=
  { title := "Error: Could not load data", author := "N/A", length := 0,
    tags := [], publish_date := "N/A", thumbnail := none,
    qualities := ["720p", "480p", "360p"] }

/-- `shared_functions.load_video_attributes` (lines 311-620). -/
def load_video_attributes (v : RawVideo) : Attrs :=
  match loadBody v with
  | .ok a => a
  | .error _ => errorAttrs

theorem loadBody_ok_qualities (v : RawVideo) (a : Attrs)
    (h : loadBody v = .ok a) :
    ∃ qs, v.qualitiesE = .ok qs ∧ a.qualities = finalQualities v.kind qs := by
  unfold loadBody at h
  by_cases hk : v.kind = VideoKind.unsupported
  · rw [if_pos hk] at h
    exact absurd h (by simp)
  · rw [if_neg hk] at h
    cases h1 : v.titleE with
    | error e => rw [h1] at h; simp at h
    | ok title =>
    cases h2 : v.authorE with
    | error e => rw [h1, h2] at h; simp at h
    | ok author =>
    cases h3 : v.lengthE with
    | error e => rw [h1, h2, h3] at h; simp at h
    | ok rawLength =>
    cases h4 : v.tagsE with
    | error e => rw [h1, h2, h3, h4] at h; simp at h
    | ok tags0 =>
    cases h5 : v.publishDateE with
    | error e => rw [h1, h2, h3, h4, h5] at h; simp at h
    | ok pd =>
    cases h6 : v.thumbnailE with
    | error e => rw [h1, h2, h3, h4, h5, h6] at h; simp at h
    | ok thumb =>
    cases h7 : v.qualitiesE with
    | error e => rw [h1, h2, h3, h4, h5, h6, h7] at h; simp at h
    | ok qs =>
      rw [h1, h2, h3, h4, h5, h6, h7] at h
      have h' : (match parseDurationToSeconds rawLength with
          | Except.error e => Except.error e
          | Except.ok seconds =>
            Except.ok (mkAttrs title author seconds tags0 pd thumb v.kind qs))
          = Except.ok a := h
      refine ⟨qs, rfl, ?_⟩
      cases hp : parseDurationToSeconds rawLength with
      | error e => rw [hp] at h'; simp at h'
      | ok seconds =>
        rw [hp] at h'
        simp only [Except.ok.injEq] at h'
        rw [← h']
        rfl

theorem finalQualities_ne_nil (k : VideoKind) (qs : List String) :
    finalQualities k qs ≠ [] := by
  unfold finalQualities
  by_cases h : epBranchQualities k qs = []
  · rw [if_pos h]
    by_cases hk : k = VideoKind.eporner <;> simp [hk]
  · rw [if_neg h]
    exact h

/-! ### Claim C3 -/

/-- C3: `load_video_attributes` is total; whenever its extraction body
raises, the result is exactly the degraded record with title
"Error: Could not load data" and the default quality set, and otherwise it
is the record the body produced — every call yields a complete record. -/
theorem c3_error_fallback (v : RawVideo) :
    (loadBody v = .error () →
      load_video_attributes v =
        { title := "Error: Could not load data", author := "N/A", length := 0,
          tags := [], publish_date := "N/A", thumbnail := none,
          qualities := ["720p", "480p", "360p"] })
    ∧ (∀ a, loadBody v = .ok a → load_video_attributes v = a) := by
  constructor
  · intro h
    unfold load_video_attributes
    rw [h]
    rfl
  · intro a h
    unfold load_video_attributes
    rw [h]

/-- A concrete Eporner video whose title extraction raises. -/
def epFailVideo : RawVideo :=
  { kind := VideoKind.eporner, titleE := .error (), authorE := .ok "N/A",
    lengthE := .ok (.int 0), tagsE := .ok (.list []),
    publishDateE := .ok none, thumbnailE := .ok none, qualitiesE := .ok [] }

theorem c3_error_fallback_witness :
    loadBody epFailVideo = .error () ∧
    load_video_attributes epFailVideo =
      { title := "Error: Could not load data", author := "N/A", length := 0,
        tags := [], publish_date := "N/A", thumbnail := none,
        qualities := ["720p", "480p", "360p"] } :=
  ⟨rfl, (c3_error_fallback epFailVideo).1 rfl⟩

/-! ### Claim C4 -/

/-- C4 counterexample: an Eporner video whose extraction raises gets the
resolution-based default `["720p", "480p", "360p"]`, not the claimed
provider-appropriate `["best", "half", "worst"]`. -/
theorem c4_counterexample :
    epFailVideo.kind = VideoKind.eporner ∧
    (load_video_attributes epFailVideo).qualities = ["720p", "480p", "360p"] ∧
    (load_video_attributes epFailVideo).qualities ≠ ["best", "half", "worst"] := by
  refine ⟨rfl, rfl, ?_⟩
  decide

/-- C4 (amended): the `qualities` field is never empty; on a NON-raising
extraction that yields no qualities the substituted default is
provider-appropriate (best/half/worst for eporner, 720p/480p/360p
otherwise); on the raising path the default is always
`["720p", "480p", "360p"]` regardless of provider. -/
theorem c4_qualities (v : RawVideo) :
    (load_video_attributes v).qualities ≠ []
    ∧ (∀ a, loadBody v = .ok a → v.qualitiesE = .ok [] →
        a.qualities =
          (if v.kind = VideoKind.eporner then ["best", "half", "worst"]
           else ["720p", "480p", "360p"]))
    ∧ (loadBody v = .error () →
        (load_video_attributes v).qualities = ["720p", "480p", "360p"]) := by
  refine ⟨?_, ?_, ?_⟩
  · unfold load_video_attributes
    cases h : loadBody v with
    | error e => simp [errorAttrs]
    | ok a =>
      obtain ⟨qs, hq, hqual⟩ := loadBody_ok_qualities v a h
      rw [hqual]
      exact finalQualities_ne_nil v.kind qs
  · intro a ha hqe
    obtain ⟨qs, hq, hqual⟩ := loadBody_ok_qualities v a ha
    rw [hqe] at hq
    simp only [Except.ok.injEq] at hq
    rw [hqual, ← hq]
    unfold finalQualities epBranchQualities
    by_cases hk : v.kind = VideoKind.eporner <;> simp [hk]
  · intro h
    unfold load_video_attributes
    rw [h]
    rfl

theorem c4_qualities_witness :
    loadBody epFailVideo = .error () ∧
    (load_video_attributes epFailVideo).qualities ≠ [] ∧
    (load_video_attributes epFailVideo).qualities = ["720p", "480p", "360p"] :=
  ⟨rfl, (c4_qualities epFailVideo).1, (c4_qualities epFailVideo).2.2 rfl⟩

/-! ### Completion notifier (`register_with_main_app`) -/

/-- Arguments and observable preconditions of `register_with_main_app`
(`downloader.py` lines 69-104). -/
structure RegisterArgs where
  filename : String
  remote_url : String
  fileExists : Bool
  sizeBytes : Nat
  source_url : Option String
  thumbnail : Option String
  duration : Option Int
  author : Option String
  tags : Option (List String)
  publish_date : Option String

/-- Observable outcome of `register_with_main_app`: early return with no
call (file missing), delete-and-return (zero bytes), or a POST carrying the
non-`None` payload keys. -/
inductive RegisterOutcome
  | fileMissing
  | zeroByteDeleted
  | posted (payloadKeys : List String)
deriving DecidableEq

/-- Payload construction with `None` filtering, lines 84-96. -/
def payloadKeys (a : RegisterArgs) : List String :=
  ["filename", "remote_url", "size_bytes"] ++
    (if a.source_url.isSome then ["source_url"] else []) ++
    (if a.thumbnail.isSome then ["thumbnail"] else []) ++
    (if a.duration.isSome then ["duration"] else []) ++
    (if a.author.isSome then ["author"] else []) ++
    (if a.tags.isSome then ["tags"] else []) ++
    (if a.publish_date.isSome then ["publish_date"] else [])

/-- `HeadlessDownloader.register_with_main_app` (lines 69-104). -/
def registerWithMainApp (a : RegisterArgs) : RegisterOutcome :=
  if a.fileExists = false then .fileMissing
  else if a.sizeBytes = 0 then .zeroByteDeleted
  else .posted (payloadKeys a)

/-! ### Claim C5 -/

/-- C5: a completed transfer whose output file exists with size zero is
deleted and never reported: the outcome is delete-and-return, and no
posted outcome is possible. -/
theorem c5_zero_byte (a : RegisterArgs) (hex : a.fileExists = true)
    (hz : a.sizeBytes = 0) :
    registerWithMainApp a = RegisterOutcome.zeroByteDeleted ∧
    ∀ ks, registerWithMainApp a ≠ RegisterOutcome.posted ks := by
  have h1 : registerWithMainApp a = RegisterOutcome.zeroByteDeleted := by
    unfold registerWithMainApp
    rw [hex, hz]
    simp
  refine ⟨h1, fun ks hk => ?_⟩
  rw [h1] at hk
  exact RegisterOutcome.noConfusion hk

/-- A transfer that produced an existing zero-byte file. -/
def zeroByteArgs : RegisterArgs :=
  { filename := "video.mp4", remote_url := "http://example.com/v",
    fileExists := true, sizeBytes := 0, source_url := none, thumbnail := none,
    duration := none, author := none, tags := none, publish_date := none }

theorem c5_zero_byte_witness :
    zeroByteArgs.fileExists = true ∧ zeroByteArgs.sizeBytes = 0 ∧
    registerWithMainApp zeroByteArgs = RegisterOutcome.zeroByteDeleted :=
  ⟨rfl, rfl, (c5_zero_byte zeroByteArgs rfl rfl).1⟩

/-! ### Progress callback (`perform_download.progress_callback`) -/

/-- The per-transfer registry entry as touched by the progress callback. -/
structure TransferProgress where
  unit : String
  progress : ℚ
  total : ℚ
  speed_bps : ℚ
  last_update : ℚ
deriving DecidableEq

/-- The `progress_callback` closure of `perform_download` (lines 410-424):
`registered = false` models `download_id not in self.active_downloads`
(no-op); time values are the `time.time()` samples. -/
def progressCallback (registered : Bool) (st : TransferProgress)
    (pos total now : ℚ) : TransferProgress :=
  if registered = false then st
  else
    { unit := st.unit, progress := pos, total := total,
      speed_bps :=
        if st.unit = "bytes" ∧ (1 : ℚ) / 2 < now - st.last_update then
          ((pos - st.progress) / (now - st.last_update)) * 8
        else if st.speed_bps ≠ 0 then st.speed_bps
        else 0,
      last_update := now }

/-! ### Claim C9 -/

/-- C9 counterexample: when the position goes backwards (e.g. a retry
resets progress), the computed speed is negative, refuting "the stored
speed_bps value is always a non-negative number". -/
theorem c9_counterexample :
    (progressCallback true ⟨"bytes", 100, 100, 0, 0⟩ 0 100 1).speed_bps = -800 ∧
    (progressCallback true ⟨"bytes", 100, 100, 0, 0⟩ 0 100 1).speed_bps < 0 := by
  constructor <;> norm_num [progressCallback]

/-- C9 (amended): on a registered transfer, a new speed is computed as
(progress delta / elapsed) * 8 exactly when the unit is bytes and more
than 0.5 seconds elapsed; otherwise the previously stored speed value is
kept; the stored value is non-negative provided the previous speed was
non-negative and the position did not decrease. -/
theorem c9_speed (registered : Bool) (st : TransferProgress)
    (pos total now : ℚ) :
    (registered = true → st.unit = "bytes" → (1 : ℚ) / 2 < now - st.last_update →
      (progressCallback registered st pos total now).speed_bps
        = ((pos - st.progress) / (now - st.last_update)) * 8)
    ∧ (registered = true → ¬(st.unit = "bytes" ∧ (1 : ℚ) / 2 < now - st.last_update) →
      (progressCallback registered st pos total now).speed_bps = st.speed_bps)
    ∧ (registered = true → 0 ≤ st.speed_bps → st.progress ≤ pos →
      0 ≤ (progressCallback registered st pos total now).speed_bps) := by
  refine ⟨?_, ?_, ?_⟩
  · intro hreg hu ht
    subst hreg
    unfold progressCallback
    rw [if_neg (by simp), if_pos ⟨hu, ht⟩]
  · intro hreg hnot
    subst hreg
    unfold progressCallback
    rw [if_neg (by simp), if_neg hnot]
    by_cases hz : st.speed_bps ≠ 0
    · rw [if_pos hz]
    · rw [if_neg hz]
      push_neg at hz
      rw [hz]
  · intro hreg hnn hmono
    subst hreg
    unfold progressCallback
    rw [if_neg (by simp)]
    by_cases hc : st.unit = "bytes" ∧ (1 : ℚ) / 2 < now - st.last_update
    · rw [if_pos hc]
      have htd : (0 : ℚ) < now - st.last_update := lt_trans (by norm_num) hc.2
      have hpd : (0 : ℚ) ≤ pos - st.progress := by linarith
      have : (0 : ℚ) ≤ (pos - st.progress) / (now - st.last_update) :=
        div_nonneg hpd (le_of_lt htd)
      show (0 : ℚ) ≤ ((pos - st.progress) / (now - st.last_update)) * 8
      nlinarith
    · rw [if_neg hc]
      by_cases hz : st.speed_bps ≠ 0
      · rw [if_pos hz]
        exact hnn
      · rw [if_neg hz]

theorem c9_speed_witness :
    (progressCallback true ⟨"bytes", 0, 0, 0, 0⟩ 8 100 1).speed_bps
      = ((8 - 0) / (1 - 0)) * 8 ∧
    0 ≤ (progressCallback true ⟨"bytes", 0, 0, 0, 0⟩ 8 100 1).speed_bps :=
  ⟨(c9_speed true ⟨"bytes", 0, 0, 0, 0⟩ 8 100 1).1 rfl rfl (by norm_num),
   (c9_speed true ⟨"bytes", 0, 0, 0, 0⟩ 8 100 1).2.2 rfl (le_refl 0) (by norm_num)⟩

/-! ### Transfer reconciliation (`perform_download`) -/

/-- The `video_extensions` lists of `perform_download`. -/
def videoExtensions : List String :=
  [".mp4", ".avi", ".mov", ".mkv", ".webm", ".flv"]

/-- `any(file.lower().endswith(ext) for ext in video_extensions)`. -/
def hasVideoExtension (name : String) : Bool :=
  videoExtensions.any (fun ext => ext.data.isSuffixOf (pyLower name).data)

/-- One file of a directory listing, with the attributes the recovery code
inspects. -/
structure FileInfo where
  name : String
  size : Nat
  mtime : Int
deriving DecidableEq

/-- Observable outcome of one reconciliation block: keep the directly
created target, promote (rename) one file to the target deleting the
others, or fail with the given error description. -/
inductive ReconcileResult
  | keepTarget
  | promote (src : String) (deleted : List String)
  | fail (msg : String)
deriving DecidableEq

/-- Lines 536-552: directory files with a media extension, positive size
and modification time within 300 seconds of now, most recent first. -/
def recentVideoCandidates (listing : List FileInfo) (now : Int) : List FileInfo :=
  sortByKeyDesc (fun f => f.mtime)
    (listing.filter (fun f =>
      hasVideoExtension f.name && decide (0 < f.size) && decide (now - f.mtime < 300)))

/-- XVideos/XNXX post-download reconciliation, `downloader.py` lines
522-582: target accepted if created non-empty; one new file renamed;
zero new files recovered through recently modified media files; several
new files resolved by media extension with cleanup of the rest. -/
def xvReconcile (targetNonEmpty : Bool) (newFiles : List String)
    (listing : List FileInfo) (now : Int) : ReconcileResult :=
  if targetNonEmpty then .keepTarget
  else
    match newFiles with
    | [f] => .promote f []
    | [] =>
      match recentVideoCandidates listing now with
      | [] => .fail "failed to create any new files"
      | c :: _ => .promote c.name []
    | _ =>
      match newFiles.find? hasVideoExtension with
      | some v => .promote v (newFiles.filter (fun f => f ≠ v))
      | none => .fail "created multiple files but no recognizable video file"

/-- HQPorner/Eporner/YouPorn temp-directory fallback, lines 635-658: the
first element of the new-file set is promoted unconditionally; the
remaining temp files are removed by the `finally` cleanup. -/
def hqReconcile (newFiles : List String) : ReconcileResult :=
  match newFiles with
  | [] => .fail "fallback download created no new files"
  | f :: rest => .promote f rest

/-- Generic-provider temp-directory fallback, lines 690-738. -/
def genericReconcile (newFiles : List String) : ReconcileResult :=
  match newFiles with
  | [] => .fail "fallback download created no new files"
  | _ =>
    match newFiles.find? hasVideoExtension with
    | some v => .promote v (newFiles.filter (fun f => f ≠ v))
    | none =>
      match newFiles with
      | [f] => .promote f []
      | _ => .fail "no recognizable video files"

/-! ### Claim C2 -/

/-- C2 counterexample: in the HQPorner/Eporner/YouPorn temp-directory
fallback, two new files with NO recognized media extension do not make the
transfer fail — an arbitrary one is promoted to the final path. -/
theorem c2_counterexample :
    hasVideoExtension "a.txt" = false ∧ hasVideoExtension "b.txt" = false ∧
    hqReconcile ["a.txt", "b.txt"] =
      ReconcileResult.promote "a.txt" ["b.txt"] := by
  refine ⟨?_, ?_, rfl⟩ <;> decide

/-- C2 (amended): the claimed reconciliation holds for the XVideos/XNXX
block and the generic fallback (one new file → renamed to the target;
several new files → the first with a media extension promoted, the rest
deleted; several files with no media file → descriptive failure), with two
deviations: the XVideos/XNXX block recovers a zero-new-file outcome through
a recently modified media file and fails only when none exists, and the
HQPorner/Eporner/YouPorn fallback promotes an arbitrary new file with no
media-extension filtering, failing only when no new file appeared. -/
theorem c2_reconcile :
    (∀ (f : String) (listing : List FileInfo) (now : Int),
      xvReconcile false [f] listing now = ReconcileResult.promote f [])
    ∧ (∀ (x y : String) (rest : List String) (listing : List FileInfo)
        (now : Int) (v : String),
        (x :: y :: rest).find? hasVideoExtension = some v →
        xvReconcile false (x :: y :: rest) listing now =
          ReconcileResult.promote v ((x :: y :: rest).filter (fun f => f ≠ v)))
    ∧ (∀ (x y : String) (rest : List String) (listing : List FileInfo)
        (now : Int),
        (x :: y :: rest).find? hasVideoExtension = none →
        xvReconcile false (x :: y :: rest) listing now =
          ReconcileResult.fail "created multiple files but no recognizable video file")
    ∧ (∀ (listing : List FileInfo) (now : Int),
        recentVideoCandidates listing now = [] →
        xvReconcile false [] listing now =
          ReconcileResult.fail "failed to create any new files")
    ∧ (∀ (listing : List FileInfo) (now : Int) (c : FileInfo)
        (cs : List FileInfo),
        recentVideoCandidates listing now = c :: cs →
        xvReconcile false [] listing now = ReconcileResult.promote c.name [])
    ∧ (∀ (f : String) (rest : List String),
        hqReconcile (f :: rest) = ReconcileResult.promote f rest)
    ∧ (genericReconcile [] =
        ReconcileResult.fail "fallback download created no new files")
    ∧ (∀ (x : String) (rest : List String) (v : String),
        (x :: rest).find? hasVideoExtension = some v →
        genericReconcile (x :: rest) =
          ReconcileResult.promote v ((x :: rest).filter (fun f => f ≠ v)))
    ∧ (∀ (f : String), hasVideoExtension f = false →
        genericReconcile [f] = ReconcileResult.promote f [])
    ∧ (∀ (x y : String) (rest : List String),
        (x :: y :: rest).find? hasVideoExtension = none →
        genericReconcile (x :: y :: rest) =
          ReconcileResult.fail "no recognizable video files") := by
  refine ⟨?_, ?_, ?_, ?_, ?_, ?_, rfl, ?_, ?_, ?_⟩
  · intro f listing now
    rfl
  · intro x y rest listing now v hfind
    show (match (x :: y :: rest).find? hasVideoExtension with
      | some v => ReconcileResult.promote v ((x :: y :: rest).filter (fun f => f ≠ v))
      | none => ReconcileResult.fail
          "created multiple files but no recognizable video file") = _
    rw [hfind]
  · intro x y rest listing now hfind
    show (match (x :: y :: rest).find? hasVideoExtension with
      | some v => ReconcileResult.promote v ((x :: y :: rest).filter (fun f => f ≠ v))
      | none => ReconcileResult.fail
          "created multiple files but no recognizable video file") = _
    rw [hfind]
  · intro listing now hrec
    show (match recentVideoCandidates listing now with
      | [] => ReconcileResult.fail "failed to create any new files"
      | c :: _ => ReconcileResult.promote c.name []) = _
    rw [hrec]
  · intro listing now c cs hrec
    show (match recentVideoCandidates listing now with
      | [] => ReconcileResult.fail "failed to create any new files"
      | c :: _ => ReconcileResult.promote c.name []) = _
    rw [hrec]
  · intro f rest
    rfl
  · intro x rest v hfind
    show (match (x :: rest).find? hasVideoExtension with
      | some v => ReconcileResult.promote v ((x :: rest).filter (fun f => f ≠ v))
      | none =>
        match x :: rest with
        | [f] => ReconcileResult.promote f []
        | _ => ReconcileResult.fail "no recognizable video files") = _
    rw [hfind]
  · intro f hf
    show (match [f].find? hasVideoExtension with
      | some v => ReconcileResult.promote v ([f].filter (fun g => g ≠ v))
      | none =>
        match [f] with
        | [g] => ReconcileResult.promote g []
        | _ => ReconcileResult.fail "no recognizable video files") = _
    rw [show [f].find? hasVideoExtension = none by simp [List.find?, hf]]
  · intro x y rest hfind
    show (match (x :: y :: rest).find? hasVideoExtension with
      | some v => ReconcileResult.promote v ((x :: y :: rest).filter (fun f => f ≠ v))
      | none =>
        match x :: y :: rest with
        | [f] => ReconcileResult.promote f []
        | _ => ReconcileResult.fail "no recognizable video files") = _
    rw [hfind]

theorem c2_reconcile_witness :
    xvReconcile false ["part.mp4"] [] 0 = ReconcileResult.promote "part.mp4" [] ∧
    (["a.mp4", "b.txt"] : List String).find? hasVideoExtension = some "a.mp4" ∧
    genericReconcile ["a.mp4", "b.txt"] =
      ReconcileResult.promote "a.mp4" ["b.txt"] := by
  refine ⟨c2_reconcile.1 "part.mp4" [] 0, by decide, ?_⟩
  have h := c2_reconcile.2.2.2.2.2.2.2.1 "a.mp4" ["b.txt"] "a.mp4" (by decide)
  simpa using h

/-! ### Fetch-only enumeration (`fetch_videos_from_source`) -/

/-- One step of the underlying video generator: a produced video (with its
`load_video_attributes` result and `getattr(video, 'url', None)`), a video
whose per-item processing raises (caught, enumeration continues), or the
generator itself raising (propagates to the `finally`). -/
inductive ItemStep
  | item (a : Attrs) (url : Option String)
  | loadRaises
  | enumRaises
deriving DecidableEq

/-- Observable outcome of one run of `fetch_videos_from_source`: the
yielded records, the request delay in force during enumeration, the global
request delay after the call ends by any path, and whether the call ended
by raising. -/
structure FetchResult where
  yielded : List (Attrs × String)
  enumDelay : ℚ
  finalDelay : ℚ
  raised : Bool
deriving DecidableEq

/-- The enumeration loop of lines 944-963: limit check, per-item try, the
falsy-url skip, and the consumer optionally closing the generator after
receiving `consumerTakes` records (the `GeneratorExit` path). -/
def fetchLoop (consumerTakes : Option Nat) (effLimit : Nat) :
    List ItemStep → Nat → List (Attrs × String) → (List (Attrs × String) × Bool)
  | [], _, acc => (acc.reverse, false)
  | step :: rest, count, acc =>
    if effLimit ≤ count then (acc.reverse, false)
    else
      match step with
      | .enumRaises => (acc.reverse, true)
      | .loadRaises => fetchLoop consumerTakes effLimit rest count acc
      | .item a url =>
        match url with
        | none => fetchLoop consumerTakes effLimit rest count acc
        | some u =>
          if u = "" then fetchLoop consumerTakes effLimit rest count acc
          else if consumerTakes = some (count + 1) then
            (((a, u) :: acc).reverse, false)
          else fetchLoop consumerTakes effLimit rest (count + 1) ((a, u) :: acc)

/-- `HeadlessDownloader.fetch_videos_from_source` (lines 923-966).
`delayArg` models the `delay` argument (`some none` = a value `float()`
rejects), `limitArg` likewise for `limit`; `source = none` models
`_get_video_generator` raising — which happens BEFORE the `try/finally`
protecting the delay restore. -/
def fetchVideosFromSource (origDelay : ℚ) (delayArg : Option (Option ℚ))
    (limitArg : Option (Option Nat)) (resultLimit : Nat)
    (source : Option (List ItemStep)) (consumerTakes : Option Nat) :
    FetchResult :=
  let newDelay :=
    match delayArg with
    | none => origDelay
    | some none => origDelay
    | some (some q) => q
  let effLimit :=
    match limitArg with
    | none => resultLimit
    | some none => resultLimit
    | some (some n) => n
  match source with
  | none =>
    { yielded := [], enumDelay := newDelay, finalDelay := newDelay,
      raised := true }
  | some items =>
    let r := fetchLoop consumerTakes effLimit items 0 []
    { yielded := r.1, enumDelay := newDelay, finalDelay := origDelay,
      raised := r.2 }

/-! ### Claim C10 -/

/-- C10 counterexample: when creating the underlying generator fails (for
example an unsupported source type or URL), the function raises before
entering the `try/finally`, so the overridden delay is NOT restored:
starting from delay 1 with override 5 the global delay stays 5. -/
theorem c10_counterexample :
    (fetchVideosFromSource 1 (some (some 5)) none 50 none none).finalDelay = 5 ∧
    ((5 : ℚ) ≠ 1) := by
  constructor
  · rfl
  · norm_num

/-- C10 (amended): the override is in force during enumeration, and the
prior delay is restored whenever the generator was created — on
exhaustion, early close by the consumer, and exceptions raised during
enumeration alike; but when generator creation itself fails the override
is left in place. -/
theorem c10_delay_restore (origDelay : ℚ) (delayArg : Option (Option ℚ))
    (limitArg : Option (Option Nat)) (resultLimit : Nat)
    (items : List ItemStep) (consumerTakes : Option Nat) :
    ((fetchVideosFromSource origDelay delayArg limitArg resultLimit
      (some items) consumerTakes).finalDelay = origDelay)
    ∧ (∀ q, delayArg = some (some q) →
      (fetchVideosFromSource origDelay delayArg limitArg resultLimit
        (some items) consumerTakes).enumDelay = q)
    ∧ (∀ q, delayArg = some (some q) →
      (fetchVideosFromSource origDelay delayArg limitArg resultLimit
        none consumerTakes).finalDelay = q) := by
  refine ⟨rfl, ?_, ?_⟩
  · intro q hq
    subst hq
    rfl
  · intro q hq
    subst hq
    rfl

theorem c10_delay_restore_witness :
    (fetchVideosFromSource 1 (some (some 5)) none 50
      (some [ItemStep.enumRaises]) none).finalDelay = 1 ∧
    (fetchVideosFromSource 1 (some (some 5)) none 50
      (some [ItemStep.enumRaises]) none).enumDelay = 5 :=
  ⟨(c10_delay_restore 1 (some (some 5)) none 50 [ItemStep.enumRaises] none).1,
   (c10_delay_restore 1 (some (some 5)) none 50 [ItemStep.enumRaises] none).2.1
     5 rfl⟩

end TheServer
